import Mathlib

/-!
Shallow embedding of `src/src/glitchy.ts` (the whole repository is this one
file): the hover animation driver (`setupAnimation` / `animateScene`), the
fragment shader (`FRAGMENT_SHADER`), the scene assembly (`makeScene`) and the
text rasterizer (`writeText`), together with proofs about them.

Numbers: the JavaScript floats that hold times, intensities and random draws
are modelled as rationals; the shader runs on GLSL floats holding results of
`sin`/`fract` and is modelled over the reals.
-/

namespace Glitchy

/-! ## Animation driver (`setupAnimation`, glitchy.ts lines 142-175)

The driver closes over four mutable variables: `isHovered`, `frames`,
`hoverDuration` and `lastFrame`.  `lastFrame` only serves to compute the
elapsed wall-clock time between two animation frames, so a frame callback is
modelled as an event carrying that elapsed time `dt` together with the value
`r` drawn by `Math.random()` during that frame (unused when no intensity
update fires).  The `glitchIntensity` uniform written through
`updateIntensity` is carried in the state as well. -/

structure DriverState where
  isHovered : Bool
  frames : ℕ
  hoverDuration : ℚ
  glitchIntensity : ℚ
deriving DecidableEq, Repr

/-- ANIMATION_CONFIG.glitchIntensityMod (glitchy.ts line 4). -/
def glitchIntensityMod : ℚ := 1/2

/-- Driver variables at `setupAnimation` entry (lines 143-146), with the
uniform at its `makeScene` initial value `0.0` (line 122). -/
def initState : DriverState :=
  { isHovered := false, frames := 0, hoverDuration := 0, glitchIntensity := 0 }

/-- Handler for `mouseover` (lines 148-151): `if (!isHovered) frames = 0;
isHovered = true;`. -/
def onMouseover (s : DriverState) : DriverState :=
  { s with frames := if s.isHovered then s.frames else 0, isHovered := true }

/-- Handler for `mouseout` (lines 152-155): `isHovered = false;
updateIntensity(0);`. -/
def onMouseout (s : DriverState) : DriverState :=
  { s with isHovered := false, glitchIntensity := 0 }

/-- One `animateScene` callback (lines 157-173) with elapsed time `dt` since
the previous frame and random draw `r`.  Returns the new state together with
the list of values passed to `updateIntensity` during this frame (empty or a
singleton). -/
def frameStep (s : DriverState) (dt r : ℚ) : DriverState × List ℚ :=
  if s.isHovered ∧ s.frames < 7 then
    let hd := s.hoverDuration + dt
    if 50 ≤ hd then
      let f := s.frames + 1
      let v := if f < 5 then (r + 1) * glitchIntensityMod else 0
      ({ s with frames := f, hoverDuration := 0, glitchIntensity := v }, [v])
    else
      ({ s with hoverDuration := hd }, [])
  else
    (s, [])

/-- Events the driver reacts to.  `frame dt r` is one `animateScene`
invocation; the unconditional `render()` at its end does not touch driver
state and is not modelled. -/
inductive Event where
  | mouseover : Event
  | mouseout : Event
  | frame (dt r : ℚ) : Event
deriving DecidableEq, Repr

/-- One event, returning the new state and the `updateIntensity` writes it
caused. -/
def stepWrites (s : DriverState) : Event → DriverState × List ℚ
  | .mouseover => (onMouseover s, [])
  | .mouseout => (onMouseout s, [0])
  | .frame dt r => frameStep s dt r

/-- Run a list of events, collecting every `updateIntensity` write in order. -/
def runWrites (s : DriverState) : List Event → DriverState × List ℚ
  | [] => (s, [])
  | e :: es =>
    let p := stepWrites s e
    let q := runWrites p.1 es
    (q.1, p.2 ++ q.2)

/-- Final state after a list of events. -/
def run (s : DriverState) (es : List Event) : DriverState :=
  (runWrites s es).1

/-- Only-frame-event lists, for trailing segments of a hover cycle. -/
def frameEvents (l : List (ℚ × ℚ)) : List Event :=
  l.map fun p => Event.frame p.1 p.2

/-- Idle start, one `mouseover`, then five frame callbacks each with 50ms
elapsed (`Math.random()` drawing 0 each time). -/
def hoverTraceFive : List Event :=
  [Event.mouseover, Event.frame 50 0, Event.frame 50 0, Event.frame 50 0,
    Event.frame 50 0, Event.frame 50 0]

/-- Values `updateIntensity` can receive: exactly 0, or a pulse in `[1/2, 1)`. -/
def IntensityOk (q : ℚ) : Prop := q = 0 ∨ (1/2 ≤ q ∧ q < 1)

/-! ## Fragment shader (`FRAGMENT_SHADER`, glitchy.ts lines 15-53)

GLSL floats are modelled as reals.  A texture is a function from sampling
coordinates to an RGBA value; `texture2D` is application.  GLSL `fract x` is
`Int.fract`, GLSL `floor` is `Int.floor` (kept as a real, as in the shader),
and GLSL `mod(x, y) = x - y * floor(x / y)` is written out for `y = 3`. -/

structure Vec4 where
  r : ℝ
  g : ℝ
  b : ℝ
  a : ℝ

/-- Shader line 34: `fract(sin(segment * 1000. + glitchIntensity) * 1000.)`. -/
noncomputable def randomValue (segment g : ℝ) : ℝ :=
  Int.fract (Real.sin (segment * 1000 + g) * 1000)

/-- Shader line 35: the x component of
`vec2(randomValue * 0.03, 0.0) * glitchIntensity` (the y component is 0, so
the sampling offset is purely horizontal). -/
noncomputable def offsetX (segment g : ℝ) : ℝ :=
  randomValue segment g * 0.03 * g

/-- Shader line 41: `mod(segment, 3.0)`, by the GLSL definition of `mod`. -/
noncomputable def glslMod3 (x : ℝ) : ℝ := x - 3 * ⌊x / 3⌋

/-- Shader main body (lines 24-52), for texture `tex` sampled at `uv = (u, v)`
with uniform `glitchIntensity = g`. -/
noncomputable def fragmentShader (tex : ℝ → ℝ → Vec4) (g u v : ℝ) : Vec4 :=
  let baseState := tex u v
  if g ≤ 0 then baseState
  else
    let segment : ℝ := ⌊v * 8⌋
    let off := offsetX segment g
    let redGlitch := tex (u + off) v
    let greenGlitch := tex (u - off) v
    let blueGlitch := tex u v
    let m := glslMod3 segment
    if m = 0 then ⟨redGlitch.r, greenGlitch.g, baseState.b, redGlitch.a + greenGlitch.a⟩
    else if m = 1 then ⟨baseState.r, greenGlitch.g, blueGlitch.b, baseState.a + greenGlitch.a⟩
    else ⟨redGlitch.r, baseState.g, blueGlitch.b, redGlitch.a + baseState.a⟩

/-! ## Scene assembly (`makeScene`, glitchy.ts lines 114-140)

The numeric configuration handed to the graphics library: a perspective
camera `PerspectiveCamera(90, aspect, 0.01, 10)` at `z = 1` and a
`PlaneGeometry(2 * aspect, 2)` quad at the origin.  The frustum geometry of a
perspective camera (what the library renders) is standard: at distance `d`
the visible half-height is `d * tan(fovDeg/2 in radians)` and the visible
width is the aspect ratio times the height. -/

structure SceneConfig where
  fov : ℝ
  near : ℝ
  far : ℝ
  cameraZ : ℝ
  quadWidth : ℝ
  quadHeight : ℝ

/-- Numeric content of `makeScene` for a host box `w × h` (the code computes
`aspect = offsetWidth / offsetHeight` on line 115). -/
noncomputable def makeScene (w h : ℝ) : SceneConfig :=
  { fov := 90, near := 0.01, far := 10, cameraZ := 1,
    quadWidth := 2 * (w / h), quadHeight := 2 }

/-- Height of the view frustum slice of a perspective camera with vertical
field of view `fovDeg` degrees, at distance `dist` in front of the camera. -/
noncomputable def frustumHeight (fovDeg dist : ℝ) : ℝ :=
  2 * dist * Real.tan (fovDeg * Real.pi / 360)

/-- Width of the same frustum slice for aspect ratio `aspect`. -/
noncomputable def frustumWidth (fovDeg aspect dist : ℝ) : ℝ :=
  aspect * frustumHeight fovDeg dist

/-! ## Text rasterizer (`writeText`, glitchy.ts lines 104-112)

`writeText` grabs the 2d context, sets `fillStyle`, `font`, `textAlign` and
`textBaseline`, and calls `fillText` — and nothing else: in particular it
never clears the canvas.  `fillText` under the default composite operation
source-over-blends the glyph onto whatever the bitmap already holds; per
pixel, the glyph contributes the fill color scaled by its antialiasing
coverage there.  Colors are premultiplied RGBA over ℚ; the style-setting
lines do not touch the bitmap and need no model. -/

structure RGBA where
  r : ℚ
  g : ℚ
  b : ℚ
  a : ℚ
deriving DecidableEq, Repr

/-- Source-over compositing of a premultiplied source fragment onto a
premultiplied destination pixel (the canvas default). -/
def compositeOver (s d : RGBA) : RGBA :=
  ⟨s.r + d.r * (1 - s.a), s.g + d.g * (1 - s.a), s.b + d.b * (1 - s.a),
    s.a + d.a * (1 - s.a)⟩

/-- Effect of `writeText` on one canvas pixel: the computed-style fill color
`color`, scaled by the glyph coverage `cov` of that pixel, is composited over
the pixel's current content `dst`.  There is no clearing step before the
composite, exactly as in the source. -/
def writeTextPixel (color : RGBA) (cov : ℚ) (dst : RGBA) : RGBA :=
  compositeOver ⟨color.r * cov, color.g * cov, color.b * cov, color.a * cov⟩ dst

/-- Effect of `writeText` on the whole bitmap, pixelwise. -/
def writeText {P : Type} (color : RGBA) (cov : P → ℚ) (canvas : P → RGBA) : P → RGBA :=
  fun p => writeTextPixel color (cov p) (canvas p)

/-! ## Driver lemmas -/

theorem run_nil (s : DriverState) : run s [] = s := rfl

theorem run_cons (s : DriverState) (e : Event) (es : List Event) :
    run s (e :: es) = run (stepWrites s e).1 es := rfl

theorem run_append (s : DriverState) (es fs : List Event) :
    run s (es ++ fs) = run (run s es) fs := by
  induction es generalizing s with
  | nil => rfl
  | cons e es ih => simp [run_cons, ih]

theorem runWrites_cons (s : DriverState) (e : Event) (es : List Event) :
    runWrites s (e :: es) =
      ((runWrites (stepWrites s e).1 es).1,
        (stepWrites s e).2 ++ (runWrites (stepWrites s e).1 es).2) := rfl

/-- A frame during which the 50ms accumulator fires: the counter increments,
the accumulator resets, and one intensity write happens. -/
theorem stepWrites_fire (k : ℕ) (g dt r : ℚ) (hk : k < 7) (hdt : 50 ≤ dt) :
    stepWrites ⟨true, k, 0, g⟩ (.frame dt r) =
      (⟨true, k + 1, 0, if k + 1 < 5 then (r + 1) * glitchIntensityMod else 0⟩,
        [if k + 1 < 5 then (r + 1) * glitchIntensityMod else 0]) := by
  simp [stepWrites, frameStep, hk, hdt]

/-- Once `frames` is at 7, a frame callback changes nothing and writes
nothing (the guard `frames < 7` fails), whatever `isHovered`, `dt`, `r`. -/
theorem frameStep_at_seven (s : DriverState) (dt r : ℚ) (h : s.frames = 7) :
    frameStep s dt r = (s, []) := by
  simp [frameStep, h]

/-- After the ramp has completed (`frames = 7`), any further frame callbacks
leave the driver state untouched and perform no intensity write. -/
theorem runWrites_at_seven (s : DriverState) (h : s.frames = 7) (l : List (ℚ × ℚ)) :
    runWrites s (frameEvents l) = (s, []) := by
  induction l with
  | nil => rfl
  | cons p l ih =>
    simp [frameEvents, runWrites_cons, stepWrites, frameStep_at_seven s p.1 p.2 h] at ih ⊢
    simpa [frameEvents] using ih

theorem frames_le_step (s : DriverState) (e : Event) (h : s.frames ≤ 7) :
    (stepWrites s e).1.frames ≤ 7 := by
  cases e with
  | mouseover => simp [stepWrites, onMouseover]; split <;> omega
  | mouseout => simpa [stepWrites, onMouseout] using h
  | frame dt r =>
    simp only [stepWrites, frameStep]
    split
    · rename_i hc
      split <;> simp <;> omega
    · simpa using h

theorem frames_le_run (s : DriverState) (es : List Event) (h : s.frames ≤ 7) :
    (run s es).frames ≤ 7 := by
  induction es generalizing s with
  | nil => simpa [run_nil]
  | cons e es ih => rw [run_cons]; exact ih _ (frames_le_step s e h)

theorem intensity_ok_step (s : DriverState) (e : Event)
    (he : ∀ dt r : ℚ, e = Event.frame dt r → 0 ≤ r ∧ r < 1)
    (hs : IntensityOk s.glitchIntensity) :
    IntensityOk (stepWrites s e).1.glitchIntensity ∧
      ∀ w ∈ (stepWrites s e).2, IntensityOk w := by
  cases e with
  | mouseover => simpa [stepWrites, onMouseover, IntensityOk] using hs
  | mouseout => simp [stepWrites, onMouseout, IntensityOk]
  | frame dt r =>
    obtain ⟨hr0, hr1⟩ := he dt r rfl
    simp only [stepWrites, frameStep]
    split
    · split
      · constructor
        · split
          · right
            constructor <;> simp [glitchIntensityMod] <;> linarith
          · left; rfl
        · intro w hw
          simp at hw
          subst hw
          split
          · right
            constructor <;> simp [glitchIntensityMod] <;> linarith
          · left; rfl
      · simpa [IntensityOk] using hs
    · simpa [IntensityOk] using hs

theorem intensity_ok_run (s : DriverState) (es : List Event)
    (he : ∀ dt r : ℚ, Event.frame dt r ∈ es → 0 ≤ r ∧ r < 1)
    (hs : IntensityOk s.glitchIntensity) :
    IntensityOk (run s es).glitchIntensity ∧
      ∀ w ∈ (runWrites s es).2, IntensityOk w := by
  induction es generalizing s with
  | nil => simpa [run_nil, runWrites]
  | cons e es ih =>
    have hstep := intensity_ok_step s e
      (fun dt r hf => he dt r (by simp [hf])) hs
    have hrest := ih (stepWrites s e).1
      (fun dt r hf => he dt r (by simp [hf]))
      hstep.1
    refine ⟨by simpa [run_cons] using hrest.1, ?_⟩
    intro w hw
    rw [runWrites_cons] at hw
    simp at hw
    rcases hw with hw | hw
    · exact hstep.2 w hw
    · exact hrest.2 w hw

/-! ## Claim theorems about the driver -/

/-- C10: starting from the driver's initial state, `frames` never exceeds 7
under any event sequence; once it is 7 a frame callback performs no intensity
update and leaves the state untouched (rendering continues regardless of the
driver state); and a `mouseover` arriving with `isHovered = false` resets
`frames` to 0. -/
theorem frames_never_exceed_seven :
    (∀ es : List Event, (run initState es).frames ≤ 7) ∧
    (∀ (s : DriverState) (dt r : ℚ), s.frames = 7 → frameStep s dt r = (s, [])) ∧
    (∀ s : DriverState, s.isHovered = false → (onMouseover s).frames = 0) := by
  refine ⟨fun es => frames_le_run initState es (by simp [initState]), ?_, ?_⟩
  · exact frameStep_at_seven
  · intro s hs
    simp [onMouseover, hs]

/-- C10 witness: the three conjuncts at concrete inputs. -/
theorem frames_never_exceed_seven_witness :
    (run initState [Event.mouseover, Event.frame 50 0, Event.frame 50 0]).frames ≤ 7 ∧
    frameStep ⟨true, 7, 0, 0⟩ 100 (1/2) = (⟨true, 7, 0, 0⟩, []) ∧
    (onMouseover ⟨false, 5, 3, 0⟩).frames = 0 :=
  ⟨frames_never_exceed_seven.1 _,
    frames_never_exceed_seven.2.1 _ 100 (1/2) rfl,
    frames_never_exceed_seven.2.2 _ rfl⟩

/-- C9: if every `Math.random()` draw lies in `[0, 1)` then, from the initial
state (uniform initialised to `0.0` in `makeScene`), the `glitchIntensity`
uniform always lies in `[0, 1)`, and every individual `updateIntensity` write
is either exactly 0 or a pulse `(r + 1) * 0.5` in `[1/2, 1)`; in particular
the uniform is never negative and never reaches 2. -/
theorem glitch_intensity_range :
    ∀ es : List Event, (∀ dt r : ℚ, Event.frame dt r ∈ es → 0 ≤ r ∧ r < 1) →
      (0 ≤ (run initState es).glitchIntensity ∧ (run initState es).glitchIntensity < 1) ∧
      ∀ w ∈ (runWrites initState es).2, w = 0 ∨ (1/2 ≤ w ∧ w < 1) := by
  intro es he
  have h := intensity_ok_run initState es he (Or.inl rfl)
  refine ⟨?_, h.2⟩
  rcases h.1 with h0 | ⟨h1, h2⟩
  · rw [h0]; norm_num
  · exact ⟨by linarith, h2⟩

/-- C9 witness: a hover, one firing frame with `r = 1/2`, and a mouseout. -/
theorem glitch_intensity_range_witness :
    (0 ≤ (run initState [Event.mouseover, Event.frame 50 (1/2), Event.mouseout]).glitchIntensity ∧
      (run initState [Event.mouseover, Event.frame 50 (1/2), Event.mouseout]).glitchIntensity < 1) ∧
    ∀ w ∈ (runWrites initState [Event.mouseover, Event.frame 50 (1/2), Event.mouseout]).2,
      w = 0 ∨ (1/2 ≤ w ∧ w < 1) :=
  glitch_intensity_range _ (by
    intro dt r h
    simp only [List.mem_cons, List.not_mem_nil, or_false] at h
    rcases h with h | h | h
    · exact Event.noConfusion h
    · rw [Event.frame.injEq] at h
      rw [h.2]
      norm_num
    · exact Event.noConfusion h)

/-- C7: a `mouseout`, arriving after any event history whatsoever (any
`frames` value, any point of the ramp), sets `isHovered` to `false` and
forces `glitchIntensity` to 0 at once, touching neither `frames` nor the
50ms accumulator — it is independent of the per-frame step logic. -/
theorem mouseout_forces_intensity_zero :
    ∀ (s : DriverState) (es : List Event),
      (run s (es ++ [Event.mouseout])).glitchIntensity = 0 ∧
      (run s (es ++ [Event.mouseout])).isHovered = false ∧
      (run s (es ++ [Event.mouseout])).frames = (run s es).frames ∧
      (run s (es ++ [Event.mouseout])).hoverDuration = (run s es).hoverDuration := by
  intro s es
  rw [run_append]
  simp [run, runWrites, stepWrites, onMouseout]

/-- C2 counterexample: with the driver already hovered at `frames = 3`, a
re-entrant `mouseover` leaves `frames` at 3 — it does not reset it to 0. -/
theorem mouseover_reentrant_counterexample :
    (DriverState.mk true 3 0 0).isHovered = true ∧
    (onMouseover (DriverState.mk true 3 0 0)).frames = 3 ∧
    (onMouseover (DriverState.mk true 3 0 0)).frames ≠ 0 := by
  refine ⟨rfl, rfl, by norm_num [onMouseover]⟩

/-- C2 amended: the `mouseover` handler is a pure state update (so it cannot
restart the render loop or spawn a second driver); while already hovered it
leaves `frames` unchanged (the reset is guarded by `!isHovered`), and only a
`mouseover` arriving unhovered resets `frames` to 0. -/
theorem mouseover_reentrant_amended :
    ∀ s : DriverState,
      (s.isHovered = true → onMouseover s = { s with isHovered := true }) ∧
      (s.isHovered = false → onMouseover s = { s with isHovered := true, frames := 0 }) := by
  intro s
  constructor <;> intro h <;> simp [onMouseover, h]

/-- C2 amended witness: both branches at concrete states. -/
theorem mouseover_reentrant_amended_witness :
    onMouseover (DriverState.mk true 3 5 7) = DriverState.mk true 3 5 7 ∧
    onMouseover (DriverState.mk false 3 5 7) = DriverState.mk true 0 5 7 :=
  ⟨(mouseover_reentrant_amended _).1 rfl, (mouseover_reentrant_amended _).2 rfl⟩

/-! ## The hover cycle (C1) -/

/-- C1 counterexample: a `mouseover` followed by 5 firing frame-steps yields
the write sequence `[1/2, 1/2, 1/2, 1/2, 0]` — only 4 nonzero intensity
values, not 5: the guard `frames < 5` is tested after the increment, so the
step taking `frames` from 4 to 5 already writes 0. -/
theorem hover_cycle_counterexample :
    (runWrites initState hoverTraceFive).2 = [1/2, 1/2, 1/2, 1/2, 0] ∧
    ((runWrites initState hoverTraceFive).2.filter fun w => decide (w ≠ 0)).length = 4 := by
  have h : (runWrites initState hoverTraceFive).2 = [1/2, 1/2, 1/2, 1/2, 0] := by
    norm_num [hoverTraceFive, runWrites, stepWrites, frameStep, onMouseover, initState,
      glitchIntensityMod]
  refine ⟨h, ?_⟩
  rw [h]
  norm_num [List.filter]

/-- C1 amended: starting idle, a `mouseover` followed by at least 7
frame-steps each with at least 50ms of accumulated elapsed time produces
exactly 4 nonzero glitchIntensity values, each in `[1/2, 1)` (steps 1-4; the
`frames < 5` guard is tested after the increment), followed by three writes
forcing the intensity to 0 (steps 5-7), after which further frame callbacks
change nothing until the next `mouseover`. -/
theorem hover_cycle_amended
    (d₁ r₁ d₂ r₂ d₃ r₃ d₄ r₄ d₅ r₅ d₆ r₆ d₇ r₇ : ℚ)
    (hd₁ : 50 ≤ d₁) (hd₂ : 50 ≤ d₂) (hd₃ : 50 ≤ d₃) (hd₄ : 50 ≤ d₄)
    (hd₅ : 50 ≤ d₅) (hd₆ : 50 ≤ d₆) (hd₇ : 50 ≤ d₇)
    (hr₁ : 0 ≤ r₁ ∧ r₁ < 1) (hr₂ : 0 ≤ r₂ ∧ r₂ < 1)
    (hr₃ : 0 ≤ r₃ ∧ r₃ < 1) (hr₄ : 0 ≤ r₄ ∧ r₄ < 1)
    (rest : List (ℚ × ℚ)) :
    (runWrites initState
        (Event.mouseover :: Event.frame d₁ r₁ :: Event.frame d₂ r₂ ::
          Event.frame d₃ r₃ :: Event.frame d₄ r₄ :: Event.frame d₅ r₅ ::
          Event.frame d₆ r₆ :: Event.frame d₇ r₇ :: frameEvents rest)).2 =
      [(r₁ + 1) * glitchIntensityMod, (r₂ + 1) * glitchIntensityMod,
        (r₃ + 1) * glitchIntensityMod, (r₄ + 1) * glitchIntensityMod, 0, 0, 0] ∧
    (∀ i : ℚ, i ∈ [(r₁ + 1) * glitchIntensityMod, (r₂ + 1) * glitchIntensityMod,
        (r₃ + 1) * glitchIntensityMod, (r₄ + 1) * glitchIntensityMod] →
      1/2 ≤ i ∧ i < 1) ∧
    run initState
        (Event.mouseover :: Event.frame d₁ r₁ :: Event.frame d₂ r₂ ::
          Event.frame d₃ r₃ :: Event.frame d₄ r₄ :: Event.frame d₅ r₅ ::
          Event.frame d₆ r₆ :: Event.frame d₇ r₇ :: frameEvents rest) =
      ⟨true, 7, 0, 0⟩ := by
  have h0 : stepWrites initState Event.mouseover = (⟨true, 0, 0, 0⟩, []) := rfl
  have e₁ := stepWrites_fire 0 0 d₁ r₁ (by norm_num) hd₁
  have e₂ := stepWrites_fire 1 ((r₁ + 1) * glitchIntensityMod) d₂ r₂ (by norm_num) hd₂
  have e₃ := stepWrites_fire 2 ((r₂ + 1) * glitchIntensityMod) d₃ r₃ (by norm_num) hd₃
  have e₄ := stepWrites_fire 3 ((r₃ + 1) * glitchIntensityMod) d₄ r₄ (by norm_num) hd₄
  have e₅ := stepWrites_fire 4 ((r₄ + 1) * glitchIntensityMod) d₅ r₅ (by norm_num) hd₅
  have e₆ := stepWrites_fire 5 0 d₆ r₆ (by norm_num) hd₆
  have e₇ := stepWrites_fire 6 0 d₇ r₇ (by norm_num) hd₇
  norm_num at e₁ e₂ e₃ e₄ e₅ e₆ e₇
  refine ⟨?_, ?_, ?_⟩
  · simp only [runWrites_cons, h0, e₁, e₂, e₃, e₄, e₅, e₆, e₇,
      runWrites_at_seven ⟨true, 7, 0, 0⟩ rfl rest]
    simp
  · intro i hi
    simp only [List.mem_cons, List.not_mem_nil, or_false] at hi
    rcases hi with h | h | h | h <;> subst h <;>
      constructor <;> simp [glitchIntensityMod] <;> linarith [hr₁.1, hr₁.2, hr₂.1, hr₂.2, hr₃.1, hr₃.2, hr₄.1, hr₄.2]
  · simp only [run, runWrites_cons, h0, e₁, e₂, e₃, e₄, e₅, e₆, e₇,
      runWrites_at_seven ⟨true, 7, 0, 0⟩ rfl rest]

/-- C1 amended witness: all seven gaps exactly 50ms, random draws 0, no
trailing frames. -/
theorem hover_cycle_amended_witness :
    (runWrites initState
        (Event.mouseover :: Event.frame 50 0 :: Event.frame 50 0 ::
          Event.frame 50 0 :: Event.frame 50 0 :: Event.frame 50 0 ::
          Event.frame 50 0 :: Event.frame 50 0 :: frameEvents [])).2 =
      [(0 + 1) * glitchIntensityMod, (0 + 1) * glitchIntensityMod,
        (0 + 1) * glitchIntensityMod, (0 + 1) * glitchIntensityMod, 0, 0, 0] ∧
    (∀ i : ℚ, i ∈ [(0 + 1) * glitchIntensityMod, (0 + 1) * glitchIntensityMod,
        (0 + 1) * glitchIntensityMod, (0 + 1) * glitchIntensityMod] →
      1/2 ≤ i ∧ i < 1) ∧
    run initState
        (Event.mouseover :: Event.frame 50 0 :: Event.frame 50 0 ::
          Event.frame 50 0 :: Event.frame 50 0 :: Event.frame 50 0 ::
          Event.frame 50 0 :: Event.frame 50 0 :: frameEvents []) =
      ⟨true, 7, 0, 0⟩ :=
  hover_cycle_amended 50 0 50 0 50 0 50 0 50 0 50 0 50 0
    (by norm_num) (by norm_num) (by norm_num) (by norm_num) (by norm_num)
    (by norm_num) (by norm_num) (by norm_num) (by norm_num) (by norm_num)
    (by norm_num) []

/-! ## Claim theorems about the shader -/

/-- GLSL `mod(·, 3.0)` agrees with the mathematical residue `% 3` on
integer-valued floats, which is what `floor(uv.y * 8.0)` produces. -/
theorem glslMod3_intCast (n : ℤ) : glslMod3 (n : ℝ) = ((n % 3 : ℤ) : ℝ) := by
  have hfloor : ⌊((n : ℝ) / 3)⌋ = n / 3 := by
    have h1 : ((n : ℝ) / 3) = ((((n : ℚ) / ((3 : ℕ) : ℚ)) : ℚ) : ℝ) := by
      push_cast
      ring
    rw [h1, Rat.floor_cast, Rat.floor_intCast_div_natCast]
    norm_num
  have h2 : ((3 * (n / 3) + n % 3 : ℤ) : ℝ) = (n : ℝ) := by
    exact_mod_cast congrArg (fun z : ℤ => (z : ℝ)) (Int.ediv_add_emod n 3)
  push_cast at h2
  rw [glslMod3, hfloor]
  linarith

/-- C5: whenever `glitchIntensity ≤ 0` the fragment shader is an identity
pass: the output is exactly the unshifted texture sample at `uv`. -/
theorem shader_identity_pass (tex : ℝ → ℝ → Vec4) (g u v : ℝ) (h : g ≤ 0) :
    fragmentShader tex g u v = tex u v := by
  simp [fragmentShader, h]

/-- C5 witness: intensity 0 on a constant texture at a concrete coordinate. -/
theorem shader_identity_pass_witness :
    fragmentShader (fun _ _ => Vec4.mk 1 0 0 1) 0 (1/2) (1/3) = Vec4.mk 1 0 0 1 :=
  shader_identity_pass (fun _ _ => Vec4.mk 1 0 0 1) 0 (1/2) (1/3) le_rfl

/-- C6: for positive intensity the recombination is fully determined by
`⌊uv.y * 8⌋ % 3`, following the three documented rules: case 0 takes red from
the `+offset` sample, green from the `-offset` sample, blue from the
unshifted sample, alpha the sum of the shifted alphas; case 1 takes red, blue
and the alpha base from the unshifted sample and green from `-offset`, alpha
adding the `-offset` alpha; case 2 takes red from `+offset`, green and blue
from the unshifted sample, alpha the `+offset` alpha plus the unshifted
alpha. -/
theorem shader_recombination (tex : ℝ → ℝ → Vec4) (g u v : ℝ) (hg : 0 < g) :
    (⌊v * 8⌋ % 3 = 0 →
      fragmentShader tex g u v =
        ⟨(tex (u + offsetX (⌊v * 8⌋ : ℝ) g) v).r, (tex (u - offsetX (⌊v * 8⌋ : ℝ) g) v).g,
          (tex u v).b,
          (tex (u + offsetX (⌊v * 8⌋ : ℝ) g) v).a + (tex (u - offsetX (⌊v * 8⌋ : ℝ) g) v).a⟩) ∧
    (⌊v * 8⌋ % 3 = 1 →
      fragmentShader tex g u v =
        ⟨(tex u v).r, (tex (u - offsetX (⌊v * 8⌋ : ℝ) g) v).g, (tex u v).b,
          (tex u v).a + (tex (u - offsetX (⌊v * 8⌋ : ℝ) g) v).a⟩) ∧
    (⌊v * 8⌋ % 3 = 2 →
      fragmentShader tex g u v =
        ⟨(tex (u + offsetX (⌊v * 8⌋ : ℝ) g) v).r, (tex u v).g, (tex u v).b,
          (tex (u + offsetX (⌊v * 8⌋ : ℝ) g) v).a + (tex u v).a⟩) := by
  have hg' : ¬g ≤ 0 := not_le.mpr hg
  have hm := glslMod3_intCast ⌊v * 8⌋
  refine ⟨fun hc => ?_, fun hc => ?_, fun hc => ?_⟩ <;>
    rw [hc] at hm <;>
    simp [fragmentShader, hg', hm]

/-- C6 witness: `v = 0` lands in segment 0 (case 0); on a constant texture
the offsets are invisible and the output duplicates the sample with doubled
alpha. -/
theorem shader_recombination_witness :
    fragmentShader (fun _ _ => Vec4.mk 5 6 7 8) 1 0 0 = Vec4.mk 5 6 7 16 := by
  have h := (shader_recombination (fun _ _ => Vec4.mk 5 6 7 8) 1 0 0 (by norm_num)).1
    (by norm_num)
  norm_num at h
  exact h

/-- C3 amended: for positive intensity the horizontal offset is nonnegative
and bounded by `0.03 * glitchIntensity` (the `fract` factor lies in
`[0, 1)`), the bound scaling linearly with intensity. -/
theorem offset_magnitude_bound (segment g : ℝ) (hg : 0 < g) :
    0 ≤ offsetX segment g ∧ offsetX segment g ≤ 0.03 * g := by
  have h0 := Int.fract_nonneg (Real.sin (segment * 1000 + g) * 1000)
  have h1 := Int.fract_lt_one (Real.sin (segment * 1000 + g) * 1000)
  unfold offsetX randomValue
  constructor
  · positivity
  · nlinarith

/-- C3 amended witness: segment 0 at intensity 1. -/
theorem offset_magnitude_bound_witness :
    0 ≤ offsetX 0 1 ∧ offsetX 0 1 ≤ 0.03 * 1 :=
  offset_magnitude_bound 0 1 (by norm_num)

/-- C3 counterexample: the offset magnitude is not monotone in the intensity
at a fixed coordinate (segment 0, i.e. any `uv.y ∈ [0, 1/8)`): raising the
intensity from `0.051` to `0.0515` makes the offset drop, because the
`fract(sin ...)` factor itself depends on the intensity.  Rigorous sine
bounds: `x - x³/4 < sin x < x` pins `1000·sin(0.051)` inside `(50.96, 51)`
(fractional part above `0.96`) and `1000·sin(0.0515)` inside `(51.46, 51.5)`
(fractional part below `0.5`). -/
theorem offset_not_monotone_counterexample :
    (51/1000 : ℝ) < 103/2000 ∧ offsetX 0 (103/2000) < offsetX 0 (51/1000) := by
  have hg1 : (0:ℝ) < 51/1000 := by norm_num
  have hg2 : (0:ℝ) < 103/2000 := by norm_num
  have s1lt : Real.sin (51/1000) < 51/1000 := Real.sin_lt hg1
  have s1gt : (51/1000 : ℝ) - (51/1000)^3/4 < Real.sin (51/1000) :=
    Real.sin_gt_sub_cube hg1 (by norm_num)
  have s2lt : Real.sin (103/2000) < 103/2000 := Real.sin_lt hg2
  have s2gt : (103/2000 : ℝ) - (103/2000)^3/4 < Real.sin (103/2000) :=
    Real.sin_gt_sub_cube hg2 (by norm_num)
  have floor1 : ⌊Real.sin (51/1000) * 1000⌋ = 50 := by
    rw [Int.floor_eq_iff]
    constructor
    · push_cast
      nlinarith
    · push_cast
      nlinarith
  have floor2 : ⌊Real.sin (103/2000) * 1000⌋ = 51 := by
    rw [Int.floor_eq_iff]
    constructor
    · push_cast
      nlinarith
    · push_cast
      nlinarith
  have fract1 : Int.fract (Real.sin (51/1000) * 1000) = Real.sin (51/1000) * 1000 - 50 := by
    rw [Int.fract, floor1]
    norm_num
  have fract2 : Int.fract (Real.sin (103/2000) * 1000) = Real.sin (103/2000) * 1000 - 51 := by
    rw [Int.fract, floor2]
    norm_num
  refine ⟨by norm_num, ?_⟩
  have e1 : offsetX 0 (51/1000) = Int.fract (Real.sin (51/1000) * 1000) * 0.03 * (51/1000) := by
    norm_num [offsetX, randomValue]
  have e2 : offsetX 0 (103/2000) =
      Int.fract (Real.sin (103/2000) * 1000) * 0.03 * (103/2000) := by
    norm_num [offsetX, randomValue]
  rw [e1, e2, fract1, fract2]
  nlinarith

/-! ## Claim theorems about the scene and the rasterizer -/

/-- C8: `makeScene` builds a 90°-fov camera with near plane 0.01 and far
plane 10 placed at distance 1 along the view axis (strictly between the two
planes), and a `2·(w/h) × 2` quad at the origin whose width and height equal
the frustum width and height at that distance, for every host box — the quad
exactly fills the view. -/
theorem scene_quad_fills_frustum (w h : ℝ) :
    (makeScene w h).fov = 90 ∧ (makeScene w h).near = 0.01 ∧
    (makeScene w h).far = 10 ∧ (makeScene w h).cameraZ = 1 ∧
    (makeScene w h).near < (makeScene w h).cameraZ ∧
    (makeScene w h).cameraZ < (makeScene w h).far ∧
    (makeScene w h).quadHeight =
      frustumHeight (makeScene w h).fov (makeScene w h).cameraZ ∧
    (makeScene w h).quadWidth =
      frustumWidth (makeScene w h).fov (w / h) (makeScene w h).cameraZ := by
  have ht : Real.tan (90 * Real.pi / 360) = 1 := by
    rw [show (90 : ℝ) * Real.pi / 360 = Real.pi / 4 by ring]
    exact Real.tan_pi_div_four
  refine ⟨rfl, rfl, rfl, rfl, by norm_num [makeScene], by norm_num [makeScene], ?_, ?_⟩
  · simp [makeScene, frustumHeight, ht]
  · simp [makeScene, frustumWidth, frustumHeight, ht]
    ring

/-- C4: `writeText` is not idempotent, because it never clears the bitmap.
On a pixel where an opaque white label has antialiasing coverage `1/2`, one
call on a blank canvas leaves premultiplied alpha `1/2`, but the second call
composites the same glyph over the first and raises it to `3/4`; the outputs
differ, so the residue of the previous draw stays visible. -/
theorem writeText_not_idempotent :
    writeText (RGBA.mk 1 1 1 1) (fun _ : Unit => 1/2)
        (writeText (RGBA.mk 1 1 1 1) (fun _ : Unit => 1/2) (fun _ => RGBA.mk 0 0 0 0)) () =
      RGBA.mk (3/4) (3/4) (3/4) (3/4) ∧
    writeText (RGBA.mk 1 1 1 1) (fun _ : Unit => 1/2) (fun _ => RGBA.mk 0 0 0 0) () =
      RGBA.mk (1/2) (1/2) (1/2) (1/2) ∧
    writeText (RGBA.mk 1 1 1 1) (fun _ : Unit => 1/2)
        (writeText (RGBA.mk 1 1 1 1) (fun _ : Unit => 1/2) (fun _ => RGBA.mk 0 0 0 0)) ≠
      writeText (RGBA.mk 1 1 1 1) (fun _ : Unit => 1/2) (fun _ => RGBA.mk 0 0 0 0) := by
  refine ⟨?_, ?_, ?_⟩
  · norm_num [writeText, writeTextPixel, compositeOver, RGBA.mk.injEq]
  · norm_num [writeText, writeTextPixel, compositeOver, RGBA.mk.injEq]
  · intro hcontra
    have h := congrFun hcontra ()
    norm_num [writeText, writeTextPixel, compositeOver, RGBA.mk.injEq] at h

end Glitchy
